import Mathlib

/-!
Shallow embedding of `src/python_backend/app/core/scheduler.py` (class
`TaskScheduler`) and proofs about its behaviour.

Modelling conventions:
* `datetime` values are modelled as integers (minutes); `timedelta(minutes=m)`
  is the integer `m`, so `t + timedelta(minutes=m)` is `t + m`.
* The Python dict `self.tasks` is an insertion-ordered association list from
  task name to task record; dict assignment replaces in place when the key is
  present and appends otherwise, deletion removes the (unique) entry, and
  iteration follows the list order.
* A job function is opaque to the scheduler.  We record its identity as a
  `Nat` handle together with the captured `args`/`kwargs`; the outcome of one
  `await func(*args, **kwargs)` is supplied by the environment at each call
  site as an `Except String Int` (`.error e` models a raised exception with
  message `e`).
* `run_task` evaluates `datetime.now()` once after the awaited call; that
  timestamp is the explicit parameter `t`.  The scheduler loop evaluates
  `now = datetime.now()` once per tick before scanning the registry; that is
  the explicit parameter `now` of `tick`.
-/

namespace Scheduler

/-- Timestamps (minutes since an arbitrary epoch). -/
abbrev Time := Int

/-- One value of the task dict built by `add_task`:
`{"func": ..., "interval_minutes": ..., "args": ..., "kwargs": ...,
  "last_run": ..., "next_run": ...}`. -/
structure Task where
  func : Nat
  interval_minutes : Int
  args : List Int
  kwargs : List (String × Int)
  last_run : Option Time
  next_run : Time
  deriving Repr, DecidableEq

/-- `self.tasks`: the registry, a Python dict modelled as an
insertion-ordered association list keyed by task name. -/
abbrev Registry := List (String × Task)

/-- First value stored under a key, as Python `d[k]` / `k in d` see it. -/
def lookupTask : Registry → String → Option Task
  | [], _ => none
  | (n, t) :: rest, name => if n = name then some t else lookupTask rest name

/-- Python dict assignment `d[k] = v`: replace in place if the key is
present, otherwise append at the end (insertion order). -/
def dictSet : Registry → String → Task → Registry
  | [], name, v => [(name, v)]
  | (n, t) :: rest, name, v =>
      if n = name then (n, v) :: rest else (n, t) :: dictSet rest name v

/-- Python `if k in d: del d[k]`: remove the entry when present, no-op
otherwise. -/
def dictErase : Registry → String → Registry
  | [], _ => []
  | (n, t) :: rest, name =>
      if n = name then rest else (n, t) :: dictErase rest name

/-- Well-formedness every Python dict enjoys: keys are pairwise distinct. -/
def WF (s : Registry) : Prop := (s.map Prod.fst).Nodup

instance (s : Registry) : Decidable (WF s) := by
  unfold WF; infer_instance

/-- `TaskScheduler.add_task(name, func, interval_minutes, args, kwargs)`,
called at time `t` (the value `datetime.now()` yields for `next_run`).
The Python method has no `return` statement, so the call evaluates to
`None`; the second component is that returned value (`none` = Python
`None`, a `some` would be a returned task id). -/
def add_task (s : Registry) (name : String) (func : Nat)
    (interval_minutes : Int) (args : List Int) (kwargs : List (String × Int))
    (t : Time) : Registry × Option Nat :=
  (dictSet s name
    { func := func
      interval_minutes := interval_minutes
      args := args
      kwargs := kwargs
      last_run := none
      next_run := t },
   none)

/-- `TaskScheduler.remove_task(name)`. -/
def remove_task (s : Registry) (name : String) : Registry :=
  dictErase s name

/-- What `run_task` returns: the job function's result on success, the dict
`{"error": str(e)}` when the function raised. -/
inductive RunResult where
  | success (v : Int)
  | errorDict (msg : String)
  deriving Repr, DecidableEq

/-- `TaskScheduler.run_task(name)` ("run a task immediately").
`outcome` is the result of `await task["func"](*args, **kwargs)`;
`t` is the value of `datetime.now()` evaluated after the await.
Returns the updated registry and the Python return value (`none` models
the implicit `None` when the name is absent). -/
def run_task (s : Registry) (name : String) (outcome : Except String Int)
    (t : Time) : Registry × Option RunResult :=
  match lookupTask s name with
  | none => (s, none)
  | some task =>
    match outcome with
    | .ok v =>
        (dictSet s name
          { task with
              last_run := some t
              next_run := t + task.interval_minutes },
         some (.success v))
    | .error e => (s, some (.errorDict e))

/-- The body of the inner `try` in `_scheduler_loop` for one due task:
await the function, then write `last_run = now` and
`next_run = now + timedelta(minutes=interval_minutes)`.  A raised
exception surfaces as `.error` before the writes happen. -/
def scheduled_try (now : Time) (outcome : Except String Int) (task : Task) :
    Except String Task := do
  let _ ← outcome
  pure { task with last_run := some now, next_run := now + task.interval_minutes }

/-- One due task as processed by the loop, `try`/`except` included: the
`except Exception` arm logs and leaves the task record untouched. -/
def scheduled_run (now : Time) (outcome : Except String Int) (task : Task) :
    Task :=
  match scheduled_try now outcome task with
  | .ok t' => t'
  | .error _ => task

/-- One entry of the `for name, task in self.tasks.items()` scan:
the due check `task["next_run"] <= now` guards the dispatch. -/
def tick_entry (now : Time) (outcome : Except String Int) (task : Task) :
    Task :=
  if task.next_run ≤ now then scheduled_run now outcome task else task

/-- The due check of the loop as a predicate on one registry entry. -/
def isDue (now : Time) (e : String × Task) : Bool :=
  decide (e.2.next_run ≤ now)

/-- `dueJobs(now)`: the names the loop dispatches this tick, in registry
(insertion) order. -/
def dueJobs (s : Registry) (now : Time) : List String :=
  (s.filter (isDue now)).map Prod.fst

/-- One iteration of the `while` body of `_scheduler_loop` (minus the
sleep): scan every task in order, dispatch the due ones, record
bookkeeping on success and swallow failures.  `outcomes` gives, per task
name, the result of its awaited call this tick.  Returns the updated
registry together with the names dispatched. -/
def tick (s : Registry) (now : Time) (outcomes : String → Except String Int) :
    Registry × List String :=
  (s.map (fun e => (e.1, tick_entry now (outcomes e.1) e.2)), dueJobs s now)

/-- A handle to the asyncio task of `_scheduler_loop`, as the lifecycle
code sees it: its only observable effect here is whether `.cancel()` has
been called on it. -/
structure LoopHandle where
  cancelled : Bool
  deriving Repr, DecidableEq

/-- The whole scheduler object: `self.tasks`, `self.running`,
`self.task_loop`. -/
structure SchedState where
  tasks : Registry
  running : Bool
  task_loop : Option LoopHandle
  deriving Repr, DecidableEq

/-- `TaskScheduler.__init__`. -/
def initState : SchedState :=
  { tasks := [], running := false, task_loop := none }

/-- `TaskScheduler.start()`: when not running, set `running = True` and
store the handle of the freshly spawned loop task. -/
def start (s : SchedState) : SchedState :=
  if s.running then s
  else { s with running := true, task_loop := some { cancelled := false } }

/-- `TaskScheduler.stop()`: when running, set `running = False` and, if a
handle is held, call `.cancel()` on it.  The handle itself is kept. -/
def stop (s : SchedState) : SchedState :=
  if s.running then
    { s with
        running := false
        task_loop := s.task_loop.map (fun h => { h with cancelled := true }) }
  else s

/-! ### Basic lemmas about the registry operations -/

theorem lookupTask_dictSet_self (s : Registry) (name : String) (v : Task) :
    lookupTask (dictSet s name v) name = some v := by
  induction s with
  | nil => simp [dictSet, lookupTask]
  | cons e rest ih =>
    obtain ⟨n, t⟩ := e
    by_cases h : n = name <;> simp [dictSet, lookupTask, h, ih]

theorem lookupTask_dictSet_ne (s : Registry) (name m : String) (v : Task)
    (h : m ≠ name) :
    lookupTask (dictSet s name v) m = lookupTask s m := by
  induction s with
  | nil =>
    simp only [dictSet, lookupTask, if_neg (Ne.symm h)]
  | cons e rest ih =>
    obtain ⟨n, t⟩ := e
    by_cases hn : n = name
    · subst hn
      simp only [dictSet, if_pos rfl, lookupTask, if_neg (Ne.symm h)]
    · simp only [dictSet, if_neg hn, lookupTask, ih]

theorem dictSet_keys_of_mem (s : Registry) (name : String) (v : Task)
    (h : name ∈ s.map Prod.fst) :
    (dictSet s name v).map Prod.fst = s.map Prod.fst := by
  induction s with
  | nil => simp at h
  | cons e rest ih =>
    obtain ⟨n, t⟩ := e
    by_cases hn : n = name
    · simp [dictSet, hn]
    · rw [List.map_cons] at h
      rcases List.mem_cons.mp h with h0 | h0
      · exact absurd h0.symm hn
      · simp [dictSet, hn, ih h0]

theorem dictSet_length_of_mem (s : Registry) (name : String) (v : Task)
    (h : name ∈ s.map Prod.fst) :
    (dictSet s name v).length = s.length := by
  have := dictSet_keys_of_mem s name v h
  have h1 : ((dictSet s name v).map Prod.fst).length = (s.map Prod.fst).length := by
    rw [this]
  simpa using h1

theorem dictErase_of_not_mem (s : Registry) (name : String)
    (h : name ∉ s.map Prod.fst) :
    dictErase s name = s := by
  induction s with
  | nil => rfl
  | cons e rest ih =>
    obtain ⟨n, t⟩ := e
    rw [List.map_cons] at h
    have hn : ¬n = name := fun h0 => h (List.mem_cons.mpr (Or.inl h0.symm))
    have hr : name ∉ rest.map Prod.fst :=
      fun h0 => h (List.mem_cons.mpr (Or.inr h0))
    simp only [dictErase, if_neg hn, ih hr]

theorem lookupTask_eq_none_of_not_mem (s : Registry) (name : String)
    (h : name ∉ s.map Prod.fst) :
    lookupTask s name = none := by
  induction s with
  | nil => rfl
  | cons e rest ih =>
    obtain ⟨n, t⟩ := e
    rw [List.map_cons] at h
    have hn : ¬n = name := fun h0 => h (List.mem_cons.mpr (Or.inl h0.symm))
    have hr : name ∉ rest.map Prod.fst :=
      fun h0 => h (List.mem_cons.mpr (Or.inr h0))
    simp only [lookupTask, if_neg hn, ih hr]

theorem nodup_cons_head {n : String} {t : Task} {rest : Registry}
    (hwf : WF ((n, t) :: rest)) : n ∉ rest.map Prod.fst := by
  unfold WF at hwf
  rw [List.map_cons] at hwf
  exact (List.nodup_cons.mp hwf).1

theorem nodup_cons_tail {n : String} {t : Task} {rest : Registry}
    (hwf : WF ((n, t) :: rest)) : WF rest := by
  unfold WF at hwf
  rw [List.map_cons] at hwf
  exact (List.nodup_cons.mp hwf).2

theorem lookupTask_dictErase_self (s : Registry) (name : String)
    (hwf : WF s) :
    lookupTask (dictErase s name) name = none := by
  induction s with
  | nil => rfl
  | cons e rest ih =>
    obtain ⟨n, t⟩ := e
    by_cases hn : n = name
    · subst hn
      simp only [dictErase, if_pos rfl]
      exact lookupTask_eq_none_of_not_mem rest n (nodup_cons_head hwf)
    · simp only [dictErase, if_neg hn, lookupTask, ih (nodup_cons_tail hwf)]

theorem mem_dictSet_self (s : Registry) (name : String) (v : Task) :
    (name, v) ∈ dictSet s name v := by
  induction s with
  | nil => simp [dictSet]
  | cons e rest ih =>
    obtain ⟨n, t⟩ := e
    by_cases hn : n = name
    · subst hn
      simp [dictSet]
    · simp only [dictSet, if_neg hn]
      exact List.mem_cons.mpr (Or.inr ih)

theorem dictSet_length_of_not_mem (s : Registry) (name : String) (v : Task)
    (h : name ∉ s.map Prod.fst) :
    (dictSet s name v).length = s.length + 1 := by
  induction s with
  | nil => rfl
  | cons e rest ih =>
    obtain ⟨n, t⟩ := e
    rw [List.map_cons] at h
    have hn : ¬n = name := fun h0 => h (List.mem_cons.mpr (Or.inl h0.symm))
    have hr : name ∉ rest.map Prod.fst :=
      fun h0 => h (List.mem_cons.mpr (Or.inr h0))
    simp only [dictSet, if_neg hn, List.length_cons, ih hr]

theorem mem_of_lookupTask (s : Registry) (m : String) (task : Task)
    (h : lookupTask s m = some task) : (m, task) ∈ s := by
  induction s with
  | nil => exact absurd h (by simp [lookupTask])
  | cons e rest ih =>
    obtain ⟨n, t⟩ := e
    by_cases hn : n = m
    · subst hn
      simp only [lookupTask, if_true, eq_self_iff_true, Option.some.injEq] at h
      subst h
      exact List.mem_cons.mpr (Or.inl rfl)
    · simp only [lookupTask, if_neg hn] at h
      exact List.mem_cons.mpr (Or.inr (ih h))

theorem mem_dueJobs_of_mem (s : Registry) (name : String) (task : Task)
    (now : Time) (hmem : (name, task) ∈ s) (hdue : task.next_run ≤ now) :
    name ∈ dueJobs s now := by
  unfold dueJobs
  exact List.mem_map.mpr
    ⟨(name, task), List.mem_filter.mpr ⟨hmem, by simpa [isDue] using hdue⟩, rfl⟩

theorem lookupTask_map_entry (s : Registry) (m : String) (task : Task)
    (f : String → Task → Task) (h : lookupTask s m = some task) :
    lookupTask (s.map (fun e => (e.1, f e.1 e.2))) m = some (f m task) := by
  induction s with
  | nil => exact absurd h (by simp [lookupTask])
  | cons e rest ih =>
    obtain ⟨n, t⟩ := e
    by_cases hn : n = m
    · subst hn
      simp only [lookupTask, if_true, eq_self_iff_true, Option.some.injEq] at h
      subst h
      simp [lookupTask]
    · simp only [lookupTask, if_neg hn] at h
      simpa [lookupTask, hn] using ih h

theorem tick_entry_error (now : Time) (e : String) (task : Task) :
    tick_entry now (Except.error e) task = task := by
  unfold tick_entry scheduled_run scheduled_try
  split <;> rfl

theorem tick_error_id (s : Registry) (now : Time) (e : String) :
    (tick s now (fun _ => Except.error e)).1 = s := by
  unfold tick
  simp [tick_entry_error]

/-- Several consecutive iterations of the scheduler loop: one `tick` per
wake-up time in `times`; `oo` supplies each tick's outcomes.  Returns the
final registry and the per-tick dispatch lists. -/
def ticks : Registry → List Time → (Time → String → Except String Int) →
    Registry × List (List String)
  | s, [], _ => (s, [])
  | s, now :: rest, oo =>
      let r := tick s now (oo now)
      let r' := ticks r.1 rest oo
      (r'.1, r.2 :: r'.2)

theorem ticks_length (s : Registry) (times : List Time)
    (oo : Time → String → Except String Int) :
    (ticks s times oo).2.length = times.length := by
  induction times generalizing s with
  | nil => rfl
  | cons now rest ih => simp [ticks, ih]

theorem lookupTask_dictErase_ne (s : Registry) (name m : String)
    (h : m ≠ name) :
    lookupTask (dictErase s name) m = lookupTask s m := by
  induction s with
  | nil => rfl
  | cons e rest ih =>
    obtain ⟨n, t⟩ := e
    by_cases hn : n = name
    · subst hn
      simp [dictErase, lookupTask, Ne.symm h]
    · simp only [dictErase, if_neg hn, lookupTask, ih]


/-! ### Concrete example data used by witnesses and counterexamples -/

/-- A registered job with interval 5 that has never run. -/
def tJob : Task :=
  { func := 0, interval_minutes := 5, args := [], kwargs := []
    last_run := none, next_run := 0 }

/-- A second job, interval 3, never run. -/
def tJob2 : Task :=
  { func := 1, interval_minutes := 3, args := [], kwargs := []
    last_run := none, next_run := 0 }

/-! ### Claims -/

/-- C6: for every `add_task` call (every call succeeds), the new job's
`next_run` is initialised to the registration time `t0`, so the job is in
`dueJobs` at every time at or after registration, before any tick has
run. -/
theorem c6_new_task_immediately_due (s : Registry) (name : String)
    (func : Nat) (interval : Int) (args : List Int)
    (kwargs : List (String × Int)) (t0 t : Time) (h : t0 ≤ t) :
    (∃ task, lookupTask (add_task s name func interval args kwargs t0).1 name
        = some task ∧ task.next_run = t0) ∧
    name ∈ dueJobs (add_task s name func interval args kwargs t0).1 t := by
  constructor
  · exact ⟨_, lookupTask_dictSet_self s name _, rfl⟩
  · exact mem_dueJobs_of_mem _ name _ t (mem_dictSet_self s name _) h

theorem c6_new_task_immediately_due_witness :
    (∃ task, lookupTask (add_task [] "a" 0 5 [] [] 0).1 "a"
        = some task ∧ task.next_run = 0) ∧
    "a" ∈ dueJobs (add_task [] "a" 0 5 [] [] 0).1 0 :=
  c6_new_task_immediately_due [] "a" 0 5 [] [] 0 0 (by decide)

/-- C7: `remove_task` deletes the matching entry when present (its key no
longer resolves), never raises (it is a total function), leaves every
other entry unchanged, and on an unknown name is the identity on the
registry (size unchanged, all entries unchanged). -/
theorem c7_remove_task_spec (s : Registry) (name : String) (hwf : WF s) :
    lookupTask (remove_task s name) name = none ∧
    (∀ m, m ≠ name → lookupTask (remove_task s name) m = lookupTask s m) ∧
    (name ∉ s.map Prod.fst → remove_task s name = s) := by
  refine ⟨lookupTask_dictErase_self s name hwf, ?_, ?_⟩
  · intro m hm
    exact lookupTask_dictErase_ne s name m hm
  · intro habs
    exact dictErase_of_not_mem s name habs

theorem c7_remove_task_spec_witness :
    lookupTask (remove_task [("a", tJob)] "b") "b" = none ∧
    (∀ m, m ≠ "b" →
      lookupTask (remove_task [("a", tJob)] "b") m
        = lookupTask [("a", tJob)] m) ∧
    ("b" ∉ ([("a", tJob)] : Registry).map Prod.fst →
      remove_task [("a", tJob)] "b" = [("a", tJob)]) :=
  c7_remove_task_spec [("a", tJob)] "b" (by decide)

/-- C8: `run_task` on a name absent from the registry returns `None`
(no result, no error) and leaves the registry untouched, for any outcome
the function could have had and any time. -/
theorem c8_run_task_unknown (s : Registry) (name : String)
    (outcome : Except String Int) (t : Time)
    (h : lookupTask s name = none) :
    run_task s name outcome t = (s, none) := by
  unfold run_task
  rw [h]

theorem c8_run_task_unknown_witness :
    run_task [("a", tJob)] "b" (Except.ok 0) 7 = ([("a", tJob)], none) :=
  c8_run_task_unknown [("a", tJob)] "b" (Except.ok 0) 7 (by decide)

/-- C10: registration is keyed by the caller-supplied name.  A second
`add_task` with an already-registered name silently replaces the existing
record: function, interval, args, kwargs are overwritten, `last_run` is
reset to `None` and `next_run` to the new registration time, with no
error (the call still returns `None`), no change to registry size, and
every other entry untouched. -/
theorem c10_add_task_replaces_by_name (s : Registry) (name : String)
    (func : Nat) (interval : Int) (args : List Int)
    (kwargs : List (String × Int)) (t : Time)
    (h : name ∈ s.map Prod.fst) :
    (add_task s name func interval args kwargs t).1.length = s.length ∧
    lookupTask (add_task s name func interval args kwargs t).1 name =
      some { func := func, interval_minutes := interval, args := args
             kwargs := kwargs, last_run := none, next_run := t } ∧
    (∀ m, m ≠ name →
      lookupTask (add_task s name func interval args kwargs t).1 m
        = lookupTask s m) ∧
    (add_task s name func interval args kwargs t).2 = none := by
  refine ⟨dictSet_length_of_mem s name _ h,
    lookupTask_dictSet_self s name _, ?_, rfl⟩
  intro m hm
  exact lookupTask_dictSet_ne s name m _ hm

theorem c10_add_task_replaces_by_name_witness :
    (add_task [("a", tJob), ("b", tJob2)] "a" 9 60 [1] [] 42).1.length
      = ([("a", tJob), ("b", tJob2)] : Registry).length ∧
    lookupTask (add_task [("a", tJob), ("b", tJob2)] "a" 9 60 [1] [] 42).1 "a"
      = some { func := 9, interval_minutes := 60, args := [1]
               kwargs := [], last_run := none, next_run := 42 } ∧
    (∀ m, m ≠ "a" →
      lookupTask (add_task [("a", tJob), ("b", tJob2)] "a" 9 60 [1] [] 42).1 m
        = lookupTask [("a", tJob), ("b", tJob2)] m) ∧
    (add_task [("a", tJob), ("b", tJob2)] "a" 9 60 [1] [] 42).2 = none :=
  c10_add_task_replaces_by_name [("a", tJob), ("b", tJob2)] "a" 9 60 [1] [] 42
    (by decide)

/-- C5: failures are contained.  For any outcome assignment `o` — in
particular one where some jobs raise — the tick dispatches exactly the
due jobs (a failing job never shortens that list), each entry's resulting
record depends only on its own outcome, and a multi-tick run performs one
dispatch round per wake-up regardless of the outcomes, so a failure never
terminates the loop. -/
theorem c5_failure_containment (s : Registry) (now : Time)
    (o : String → Except String Int) (times : List Time)
    (oo : Time → String → Except String Int) (m : String) (task : Task)
    (hm : lookupTask s m = some task) :
    (tick s now o).2 = dueJobs s now ∧
    lookupTask (tick s now o).1 m = some (tick_entry now (o m) task) ∧
    (ticks s times oo).2.length = times.length := by
  refine ⟨rfl, ?_, ticks_length s times oo⟩
  exact lookupTask_map_entry s m task (fun n tk => tick_entry now (o n) tk) hm

theorem c5_failure_containment_witness :
    (tick [("a", tJob), ("b", tJob2)] 0
        (fun n => if n = "a" then Except.error "boom" else Except.ok 1)).2
      = dueJobs [("a", tJob), ("b", tJob2)] 0 ∧
    lookupTask (tick [("a", tJob), ("b", tJob2)] 0
        (fun n => if n = "a" then Except.error "boom" else Except.ok 1)).1 "b"
      = some (tick_entry 0
          ((fun n => if n = "a" then Except.error "boom" else Except.ok 1) "b")
          tJob2) ∧
    (ticks [("a", tJob), ("b", tJob2)] [0, 60]
        (fun _ _ => Except.error "boom")).2.length = ([0, 60] : List Time).length :=
  c5_failure_containment [("a", tJob), ("b", tJob2)] 0
    (fun n => if n = "a" then Except.error "boom" else Except.ok 1)
    [0, 60] (fun _ _ => Except.error "boom") "b" tJob2 (by decide)

/-- C1 counterexample: a job with interval 5 and `next_run = 0` whose
function raises at a run-now invocation completing at time 7.  The claim
says `last_run`/`next_run` advance exactly as on success (to `some 7` and
`12`); in the code the failing run leaves the registry untouched
(`last_run` still `none`, `next_run` still `0`), so the job is already
due again at time 8 — the immediately following tick — not at 12. -/
theorem c1_counterexample :
    (run_task [("j", tJob)] "j" (Except.error "boom") 7).1 = [("j", tJob)] ∧
    (run_task [("j", tJob)] "j" (Except.error "boom") 7).2
      = some (RunResult.errorDict "boom") ∧
    tJob.last_run = none ∧ tJob.next_run = 0 ∧ tJob.interval_minutes = 5 ∧
    "j" ∈ dueJobs (run_task [("j", tJob)] "j" (Except.error "boom") 7).1 8 := by
  decide

/-- C1 as amended: both paths catch the error (run-now returns the error
dict, the loop swallows it), but neither advances `last_run`/`next_run`:
the registry is left unchanged, so a job whose function always fails
stays due and is dispatched again on the immediately following tick
instead of waiting for its next regular interval. -/
theorem c1_corrected_failure_not_advanced (s : Registry) (name : String)
    (task : Task) (e : String) (t now t' : Time)
    (h : lookupTask s name = some task) (hdue : task.next_run ≤ t') :
    (run_task s name (Except.error e) t).1 = s ∧
    (run_task s name (Except.error e) t).2 = some (RunResult.errorDict e) ∧
    (tick s now (fun _ => Except.error e)).1 = s ∧
    name ∈ dueJobs s t' := by
  refine ⟨?_, ?_, tick_error_id s now e,
    mem_dueJobs_of_mem s name task t' (mem_of_lookupTask s name task h) hdue⟩
  · unfold run_task
    rw [h]
  · unfold run_task
    rw [h]

theorem c1_corrected_failure_not_advanced_witness :
    (run_task [("j", tJob)] "j" (Except.error "x") 7).1 = [("j", tJob)] ∧
    (run_task [("j", tJob)] "j" (Except.error "x") 7).2
      = some (RunResult.errorDict "x") ∧
    (tick [("j", tJob)] 0 (fun _ => Except.error "x")).1 = [("j", tJob)] ∧
    "j" ∈ dueJobs [("j", tJob)] 8 :=
  c1_corrected_failure_not_advanced [("j", tJob)] "j" tJob "x" 7 0 8
    (by decide) (by decide)

/-- C2 counterexample: `add_task` with interval `0` on an empty registry.
The claim says the call fails with `InvalidConfiguration` and the
registry size is unchanged; in the code the call succeeds (it returns
`None` like every call — the method has no error path at all), the job
enters the registry, and the size grows from 0 to 1. -/
theorem c2_counterexample :
    (add_task [] "a" 0 0 [] [] 0).1.length = 1 ∧
    lookupTask (add_task [] "a" 0 0 [] [] 0).1 "a" =
      some { func := 0, interval_minutes := 0, args := [], kwargs := []
             last_run := none, next_run := 0 } ∧
    (add_task [] "a" 0 0 [] [] 0).2 = none := by
  decide

/-- C2 as amended: `add_task` performs no interval validation.  A call
with a zero or negative interval succeeds like any other: no error is
reported, the job enters the registry with that interval (for a fresh
name the registry grows by one), and the call returns `None`. -/
theorem c2_corrected_no_interval_validation (s : Registry) (name : String)
    (func : Nat) (interval : Int) (args : List Int)
    (kwargs : List (String × Int)) (t : Time)
    (_hi : interval ≤ 0) (hfresh : name ∉ s.map Prod.fst) :
    (add_task s name func interval args kwargs t).1.length = s.length + 1 ∧
    lookupTask (add_task s name func interval args kwargs t).1 name =
      some { func := func, interval_minutes := interval, args := args
             kwargs := kwargs, last_run := none, next_run := t } ∧
    (add_task s name func interval args kwargs t).2 = none :=
  ⟨dictSet_length_of_not_mem s name _ hfresh,
   lookupTask_dictSet_self s name _, rfl⟩

theorem c2_corrected_no_interval_validation_witness :
    (add_task [] "a" 0 (-2) [] [] 3).1.length = ([] : Registry).length + 1 ∧
    lookupTask (add_task [] "a" 0 (-2) [] [] 3).1 "a" =
      some { func := 0, interval_minutes := -2, args := [], kwargs := []
             last_run := none, next_run := 3 } ∧
    (add_task [] "a" 0 (-2) [] [] 3).2 = none :=
  c2_corrected_no_interval_validation [] "a" 0 (-2) [] [] 3
    (by decide) (by decide)

/-- C3, code evaluated at the failing input: `add_task` never returns an
id — every call returns `None`, so two successive registrations return
equal (not fresh) values — and a registration reusing an existing name
does not create a second entry: identity in the registry is the
caller-supplied name, not a generated id. -/
theorem c3_code_eval :
    (add_task [] "a" 1 60 [] [] 0).2 = none ∧
    (add_task (add_task [] "a" 1 60 [] [] 0).1 "b" 2 60 [] [] 0).2 = none ∧
    (add_task (add_task [] "a" 1 60 [] [] 0).1 "a" 2 60 [] [] 0).1.length
      = (add_task [] "a" 1 60 [] [] 0).1.length := by
  decide

/-- C4 counterexample: job `"k"` (interval 3, never run) whose function
raises at a run-now invocation completing at time 7.  The invocation
completes (the error is caught and returned as a dict), yet the registry
still records `last_run = none` — not the completion time 7 — and
`next_run = 0`, not `lastRun + interval`. -/
theorem c4_counterexample :
    lookupTask (run_task [("k", tJob2)] "k" (Except.error "x") 7).1 "k"
      = some tJob2 ∧
    tJob2.last_run = none ∧ ¬tJob2.last_run = some 7 ∧ tJob2.next_run = 0 := by
  decide

/-- C4 as amended: after any successful invocation the relation holds —
the run-now path records `last_run` = the `datetime.now()` taken after
the call (its completion time) and the scheduled path records `last_run`
= the tick's `now`, and in both `next_run = last_run + interval`.
Failed invocations leave both fields unchanged. -/
theorem c4_corrected_success_bookkeeping (s : Registry) (name : String)
    (task : Task) (v : Int) (t now : Time) (o : String → Except String Int)
    (h : lookupTask s name = some task) (hdue : task.next_run ≤ now)
    (ho : o name = Except.ok v) :
    lookupTask (run_task s name (Except.ok v) t).1 name =
      some { task with last_run := some t
                       next_run := t + task.interval_minutes } ∧
    lookupTask (tick s now o).1 name =
      some { task with last_run := some now
                       next_run := now + task.interval_minutes } := by
  constructor
  · unfold run_task
    rw [h]
    exact lookupTask_dictSet_self s name _
  · have h2 : lookupTask (tick s now o).1 name
        = some (tick_entry now (o name) task) :=
      lookupTask_map_entry s name task (fun n tk => tick_entry now (o n) tk) h
    rw [h2, ho]
    simp [tick_entry, scheduled_run, scheduled_try, hdue]

theorem c4_corrected_success_bookkeeping_witness :
    lookupTask (run_task [("k", tJob2)] "k" (Except.ok 1) 7).1 "k" =
      some { tJob2 with last_run := some 7
                        next_run := 7 + tJob2.interval_minutes } ∧
    lookupTask (tick [("k", tJob2)] 4 (fun _ => Except.ok 1)).1 "k" =
      some { tJob2 with last_run := some 4
                        next_run := 4 + tJob2.interval_minutes } :=
  c4_corrected_success_bookkeeping [("k", tJob2)] "k" tJob2 1 7 4
    (fun _ => Except.ok 1) (by decide) (by decide) rfl

/-- C9, code evaluated at the failing input `start(); stop()`: the
idempotence claims hold (`start` twice equals `start` once, `stop` on a
stopped scheduler is the identity) and `stop` does set `running = False`
and cancel the loop task — but it never clears the handle:
`task_loop` still holds the cancelled task, it is not `None`. -/
theorem c9_code_eval :
    start (start initState) = start initState ∧
    stop initState = initState ∧
    (stop (start initState)).running = false ∧
    (stop (start initState)).task_loop = some { cancelled := true } ∧
    ¬(stop (start initState)).task_loop = none := by
  decide

end Scheduler
